import Mathlib

/-!
Verification of the staging-cache engine of the `rhc-osdk-utils` repository
(package `resourcecache`, file `resourceCache.go`, together with the
`Updater` helper of `utils/utils.go`).

The Go code is shallowly embedded: the two-level staging store is an
association list `ResourceIdent → NamespacedName → k8sResource`, the
backing object store (the Kubernetes client) is a list of objects plus a
write log and injectable failure results, and every cache operation is a
pure function threading the cache state and the client state.  Go `error`
returns are the `Outcome.err` constructor, `nil` is `Outcome.ok`, and a
nil-map / out-of-range dereference is `Outcome.panicked`.  Deep structural
equality (`equality.Semantic.DeepEqual`) is modelled as structural equality
of the abstract object type.  Go map iteration order is unspecified; the
association lists fix one representative order, and order-sensitive
statements are phrased so that they hold for the guarantees `sort.Sort`
actually gives (a permutation that is non-decreasing in the comparison
key).
-/

namespace ResourceCacheModel

/-- A Group/Version/Kind triple (`schema.GroupVersionKind`). -/
structure GroupVersionKind where
  group : String
  version : String
  kind : String
deriving DecidableEq, Repr

/-- A Namespace/Name pair (`types.NamespacedName`). -/
structure NamespacedName where
  ns : String
  name : String
deriving DecidableEq, Repr

/-- An abstract Kubernetes object (`client.Object`).  `gvk` is the
group/version/kind the object's Go type maps to in the scheme, `typeName`
stands for the Go reflect type name (used by `Updater.Apply` when the kind
string is empty), `payload` abstracts all remaining content (spec fields),
and `ownerRefs` is the list of owner-reference UIDs. -/
structure K8sObject where
  gvk : GroupVersionKind
  nn : NamespacedName
  typeName : String
  payload : Nat
  ownerRefs : List String
deriving DecidableEq, Repr

/-- Which concrete ident struct is used: `ResourceIdentSingle` or
`ResourceIdentMulti`.  The two Go structs are distinct types, so the
variant participates in map-key equality. -/
inductive IdentVariant where
  | single
  | multi
deriving DecidableEq, Repr

/-- `ResourceIdent` (either `ResourceIdentSingle` or `ResourceIdentMulti`).
`typeGVK` is the group/version/kind of the `Type` witness object. -/
structure ResourceIdent where
  provider : String
  purpose : String
  typeGVK : GroupVersionKind
  writeNow : Bool
  variant : IdentVariant
deriving DecidableEq, Repr

/-- The cached entry (`k8sResource`): `object` is `Object` (the current
staged value), `update` is the `utils.Updater` boolean (true iff the
resource existed in the backing store when staged), `status` is the
needs-status-write flag, `origObject` is the deep copy taken at staging
time (the baseline used for change suppression).  The debug-only
`jsonData` field is omitted: it feeds diagnostics only. -/
structure K8sResource where
  object : K8sObject
  update : Bool
  status : Bool
  origObject : K8sObject
deriving DecidableEq, Repr

/-- One write issued to the backing store, for observing I/O. -/
inductive WriteOp where
  | createOp : K8sObject → WriteOp
  | updateOp : K8sObject → WriteOp
  | statusOp : K8sObject → WriteOp
  | deleteOp : K8sObject → WriteOp
deriving DecidableEq, Repr

/-- Injectable failure results of the backing-store client, one per verb;
`none` means the verb succeeds. -/
structure FailCfg where
  failGet : Option String
  failCreate : Option String
  failUpdate : Option String
  failStatus : Option String
  failList : Option String
  failDelete : Option String
deriving DecidableEq, Repr

/-- The backing-store client (`client.Client`): the stored objects, the
failure configuration, and a log of the writes performed. -/
structure KClient where
  fails : FailCfg
  store : List K8sObject
  log : List WriteOp
deriving DecidableEq, Repr

/-- Result of `client.Get`: found (returning the stored object), the
"not found" signal, or any other error. -/
inductive GetResult where
  | found : K8sObject → GetResult
  | notFound
  | errOther : String → GetResult
deriving DecidableEq, Repr

/-- The observable result of a Go function returning `error`:
`ok` for `nil`, `err` for a non-nil error, `panicked` for a runtime panic
(nil-pointer dereference or index out of range). -/
inductive Outcome (α : Type) where
  | ok : α → Outcome α
  | err : String → Outcome α
  | panicked
deriving DecidableEq, Repr

/-- Look up a stored object by type (gvk) and namespaced name. -/
def storeGet (store : List K8sObject) (g : GroupVersionKind) (nn : NamespacedName) :
    Option K8sObject :=
  match store with
  | [] => none
  | o :: rest => if o.gvk = g ∧ o.nn = nn then some o else storeGet rest g nn

/-- Replace the stored object with the same type and name. -/
def storeReplace (store : List K8sObject) (obj : K8sObject) : List K8sObject :=
  match store with
  | [] => []
  | o :: rest =>
    if o.gvk = obj.gvk ∧ o.nn = obj.nn then obj :: rest else o :: storeReplace rest obj

/-- Remove the first stored object equal to `obj`. -/
def storeErase (store : List K8sObject) (obj : K8sObject) : List K8sObject :=
  match store with
  | [] => []
  | o :: rest => if o = obj then rest else o :: storeErase rest obj

/-- All stored objects of one kind, in store order (`client.List`). -/
def storeList (store : List K8sObject) (g : GroupVersionKind) : List K8sObject :=
  match store with
  | [] => []
  | o :: rest => if o.gvk = g then o :: storeList rest g else storeList rest g

/-- `client.Get`: reads the object of the given type at the given name. -/
def clientGet (c : KClient) (g : GroupVersionKind) (nn : NamespacedName) : GetResult :=
  match c.fails.failGet with
  | some e => GetResult.errOther e
  | none =>
    match storeGet c.store g nn with
    | some o => GetResult.found o
    | none => GetResult.notFound

/-- `client.Create`: appends the object to the store and logs the write. -/
def clientCreate (c : KClient) (obj : K8sObject) : Option String × KClient :=
  match c.fails.failCreate with
  | some e => (some e, c)
  | none => (none, { c with store := c.store ++ [obj], log := c.log ++ [WriteOp.createOp obj] })

/-- `client.Update`: replaces the stored object and logs the write. -/
def clientUpdate (c : KClient) (obj : K8sObject) : Option String × KClient :=
  match c.fails.failUpdate with
  | some e => (some e, c)
  | none => (none, { c with store := storeReplace c.store obj, log := c.log ++ [WriteOp.updateOp obj] })

/-- `client.Status().Update`: the status-subresource write.  Only the log
is affected: status content is not part of the abstract object. -/
def clientStatusUpdate (c : KClient) (obj : K8sObject) : Option String × KClient :=
  match c.fails.failStatus with
  | some e => (some e, c)
  | none => (none, { c with log := c.log ++ [WriteOp.statusOp obj] })

/-- `client.Delete`: removes the object; deleting an absent object yields
the NotFound error, as the real API server does. -/
def clientDelete (c : KClient) (obj : K8sObject) : Option String × KClient :=
  match c.fails.failDelete with
  | some e => (some e, c)
  | none =>
    if obj ∈ c.store then
      (none, { c with store := storeErase c.store obj, log := c.log ++ [WriteOp.deleteOp obj] })
    else (some "not found", c)

/-- `client.List` for a kind: the returned items (the client itself is not
mutated by a list). -/
def clientList (c : KClient) (g : GroupVersionKind) : Option String × List K8sObject :=
  match c.fails.failList with
  | some e => (some e, [])
  | none => (none, storeList c.store g)

/-- One level of the staging store: instance key → cached entry. -/
abbrev EntryMap := List (NamespacedName × K8sResource)

/-- The two-level staging store: identifier → instance key → entry. -/
abbrev DataMap := List (ResourceIdent × EntryMap)

/-- The per-kind index of staged instance keys (`resourceTracker`). -/
abbrev TrackerMap := List (GroupVersionKind × List NamespacedName)

/-- The `ObjectCache` together with its `CacheConfig`.  `scheme` is the
set of group/version/kinds registered in the runtime scheme: an object's
kind resolves iff its gvk is a member. -/
structure ObjectCache where
  data : DataMap
  resourceTracker : TrackerMap
  possibleGVKs : List GroupVersionKind
  protectedGVKs : List GroupVersionKind
  strictGVK : Bool
  ordering : List String
  scheme : List GroupVersionKind
deriving DecidableEq, Repr

/-- `utils.GetKindFromObj`: resolves an object's gvk through the scheme,
failing when the type was never registered. -/
def kindFromObjGVK (scheme : List GroupVersionKind) (g : GroupVersionKind) :
    Option GroupVersionKind :=
  if g ∈ scheme then some g else none

/-- Entry-map lookup. -/
def lookupNN (m : EntryMap) (nn : NamespacedName) : Option K8sResource :=
  match m with
  | [] => none
  | (k, v) :: rest => if k = nn then some v else lookupNN rest nn

/-- Entry-map insert/replace. -/
def setNN (m : EntryMap) (nn : NamespacedName) (r : K8sResource) : EntryMap :=
  match m with
  | [] => [(nn, r)]
  | (k, v) :: rest => if k = nn then (k, r) :: rest else (k, v) :: setNN rest nn r

/-- `o.data[ident]`. -/
def lookupIdent (d : DataMap) (ident : ResourceIdent) : Option EntryMap :=
  match d with
  | [] => none
  | (k, v) :: rest => if k = ident then some v else lookupIdent rest ident

/-- `o.data[ident][nn]` (nil-safe double lookup). -/
def lookupEntry (d : DataMap) (ident : ResourceIdent) (nn : NamespacedName) :
    Option K8sResource :=
  match lookupIdent d ident with
  | none => none
  | some m => lookupNN m nn

/-- `o.data[ident][nn] = r`, creating the inner map when missing. -/
def dataSet (d : DataMap) (ident : ResourceIdent) (nn : NamespacedName) (r : K8sResource) :
    DataMap :=
  match d with
  | [] => [(ident, [(nn, r)])]
  | (k, v) :: rest =>
    if k = ident then (k, setNN v nn r) :: rest else (k, v) :: dataSet rest ident nn r

/-- The per-kind wanted set (`o.resourceTracker[gvk]`, empty if absent). -/
def trackerGet (t : TrackerMap) (g : GroupVersionKind) : List NamespacedName :=
  match t with
  | [] => []
  | (k, v) :: rest => if k = g then v else trackerGet rest g

/-- `o.resourceTracker[gvk][nn] = true` (creating the set when missing). -/
def trackerAdd (t : TrackerMap) (g : GroupVersionKind) (nn : NamespacedName) : TrackerMap :=
  match t with
  | [] => [(g, [nn])]
  | (k, v) :: rest =>
    if k = g then (k, if nn ∈ v then v else nn :: v) :: rest
    else (k, v) :: trackerAdd rest g nn

/-- `registerGVK`: auto-register the object's kind into `possibleGVKs`.
On a resolve failure the Go code ignores the error and registers the zero
gvk. -/
def registerGVK (o : ObjectCache) (object : K8sObject) : ObjectCache :=
  let gvk := (kindFromObjGVK o.scheme object.gvk).getD { group := "", version := "", kind := "" }
  if gvk ∈ o.possibleGVKs then o else { o with possibleGVKs := gvk :: o.possibleGVKs }

/-- `AddPossibleGVKFromIdent` for one ident. -/
def addPossibleGVKFromIdent (o : ObjectCache) (ident : ResourceIdent) : ObjectCache :=
  let gvk := (kindFromObjGVK o.scheme ident.typeGVK).getD { group := "", version := "", kind := "" }
  if gvk ∈ o.possibleGVKs then o else { o with possibleGVKs := gvk :: o.possibleGVKs }

/-- Error message of the duplicate-create failure. -/
def dupCreateMsg (nn : NamespacedName) : String :=
  "cannot create: ident store already has item named " ++ nn.name

/-- Error message of the ident/object kind mismatch. -/
def mismatchMsg (nn : NamespacedName) (g1 g2 : GroupVersionKind) : String :=
  "create: resourceIdent type does not match runtime object [" ++ nn.name ++ "] [" ++
    g1.kind ++ "] [" ++ g2.kind ++ "]"

/-- Error message of the strict-mode unregistered-kind failure. -/
def unregisteredMsg (g : GroupVersionKind) : String :=
  "gvk [" ++ g.kind ++ "] of object has not been added to possibleGVKs in config"

/-- The tail of `Create` after the initial backing-store read: duplicate
check, kind-witness check, tracker update, staging of the entry.  `object`
is the caller's object, already overwritten by the read when the resource
existed; `update` is the `Updater` boolean from `UpdateOrErr`. -/
def cacheCreateAfterGet (o : ObjectCache) (ident : ResourceIdent) (nn : NamespacedName)
    (object : K8sObject) (update : Bool) : Outcome Unit × ObjectCache :=
  match lookupEntry o.data ident nn with
  | some _ => (Outcome.err (dupCreateMsg nn), o)
  | none =>
    match kindFromObjGVK o.scheme ident.typeGVK with
    | none => (Outcome.err "object type is unknown", o)
    | some gvk =>
      match kindFromObjGVK o.scheme object.gvk with
      | none => (Outcome.err "object type is unknown", o)
      | some obGVK =>
        if gvk = obGVK then
          let res : K8sResource :=
            { object := object, update := update, status := false, origObject := object }
          (Outcome.ok (),
            { o with resourceTracker := trackerAdd o.resourceTracker gvk nn,
                     data := dataSet o.data ident nn res })
        else (Outcome.err (mismatchMsg nn gvk obGVK), o)

/-- The backing-store read step of `Create`
(`update, err := utils.UpdateOrErr(o.client.Get(...))`): a found object
overwrites the caller's in-memory value; "not found" is not an error; any
other read error is returned. -/
def cacheCreateGet (o : ObjectCache) (c : KClient) (ident : ResourceIdent)
    (nn : NamespacedName) (object : K8sObject) : Outcome Unit × ObjectCache :=
  match clientGet c object.gvk nn with
  | GetResult.errOther e => (Outcome.err e, o)
  | GetResult.found stored => cacheCreateAfterGet o ident nn stored true
  | GetResult.notFound => cacheCreateAfterGet o ident nn object false

/-- `ObjectCache.Create`. -/
def cacheCreate (o : ObjectCache) (c : KClient) (ident : ResourceIdent)
    (nn : NamespacedName) (object : K8sObject) : Outcome Unit × ObjectCache :=
  if o.strictGVK then
    match kindFromObjGVK o.scheme object.gvk with
    | none => (Outcome.err "object type not in schema", o)
    | some gvk =>
      if gvk ∈ o.possibleGVKs then cacheCreateGet o c ident nn object
      else (Outcome.err (unregisteredMsg gvk), o)
  else cacheCreateGet (registerGVK o object) c ident nn object

/-- `utils.Updater.Apply`'s kind string: the object's kind, or the Go
reflect type name when the kind is empty. -/
def applyKindName (obj : K8sObject) : String :=
  if obj.gvk.kind = "" then obj.typeName else obj.gvk.kind

/-- `utils.Updater.Apply`: update when the resource pre-existed, otherwise
create — except that a create of an object with an empty name silently
does nothing.  A backing-store error is wrapped with verb, kind and name. -/
def updaterApply (u : Bool) (c : KClient) (obj : K8sObject) : Option String × KClient :=
  if u then
    match clientUpdate c obj with
    | (some e, c') =>
      (some ("error updating resource " ++ applyKindName obj ++ " " ++ obj.nn.name ++ ": " ++ e), c')
    | (none, c') => (none, c')
  else
    if obj.nn.name = "" then (none, c)
    else
      match clientCreate c obj with
      | (some e, c') =>
        (some ("error creating resource " ++ applyKindName obj ++ " " ++ obj.nn.name ++ ": " ++ e), c')
      | (none, c') => (none, c')

/-- The write-through block of `Update` for a `WriteNow` (immediate)
identifier: suppressed when the baseline deep-equals the current value
and the resource pre-existed; followed by the status write if marked. -/
def writeNowStep (o : ObjectCache) (c : KClient) (i : K8sResource) :
    Outcome Unit × ObjectCache × KClient :=
  let step1 : Option String × KClient :=
    if ¬i.origObject = i.object ∨ i.update = false then updaterApply i.update c i.object
    else (none, c)
  match step1 with
  | (some e, c') => (Outcome.err e, o, c')
  | (none, c') =>
    if i.status then
      match clientStatusUpdate c' i.object with
      | (some e, c'') => (Outcome.err e, o, c'')
      | (none, c'') => (Outcome.ok (), o, c'')
    else (Outcome.ok (), o, c')

/-- `ObjectCache.Update`. -/
def cacheUpdate (o : ObjectCache) (c : KClient) (ident : ResourceIdent) (obj : K8sObject) :
    Outcome Unit × ObjectCache × KClient :=
  match lookupIdent o.data ident with
  | none => (Outcome.err "object cache not found, cannot update", o, c)
  | some m =>
    match lookupNN m obj.nn with
    | none => (Outcome.err "object not found in cache, cannot update", o, c)
    | some entry =>
      match kindFromObjGVK o.scheme ident.typeGVK with
      | none => (Outcome.err "object type is unknown", o, c)
      | some gvk =>
        match kindFromObjGVK o.scheme obj.gvk with
        | none => (Outcome.err "object type is unknown", o, c)
        | some obGVK =>
          if gvk = obGVK then
            let newEntry := { entry with object := obj }
            let o' := { o with data := dataSet o.data ident obj.nn newEntry }
            if ident.writeNow then writeNowStep o' c newEntry
            else (Outcome.ok (), o', c)
          else (Outcome.err (mismatchMsg obj.nn gvk obGVK), o, c)

/-- `scheme.Convert` followed by `SetGroupVersionKind`: populating a caller
object of type `outGvk` from a stored value succeeds iff the types are
convertible (modelled as equal). -/
def convertObj (stored : K8sObject) (outGvk : GroupVersionKind) : Outcome K8sObject :=
  if stored.gvk = outGvk then Outcome.ok stored else Outcome.err "conversion not possible"

/-- The single-variant branch of `Get`: iterate the ident's map, converting
each value into the out object in turn. -/
def getLoop (m : EntryMap) (cur : K8sObject) : Outcome K8sObject :=
  match m with
  | [] => Outcome.ok cur
  | (_, v) :: rest =>
    match convertObj v.object cur.gvk with
    | Outcome.err e => Outcome.err e
    | Outcome.panicked => Outcome.panicked
    | Outcome.ok newObj => getLoop rest newObj

/-- `ObjectCache.Get`.  `outObj` is the caller's empty object; the result
carries the populated value.  Indexing `nn[0]` on an empty variadic list
is the panic outcome. -/
def cacheGet (o : ObjectCache) (ident : ResourceIdent) (outObj : K8sObject)
    (nns : List NamespacedName) : Outcome K8sObject :=
  match lookupIdent o.data ident with
  | none => Outcome.err "object cache not found, cannot get"
  | some m =>
    if nns.length > 1 then Outcome.err "cannot request more than one named item with get, use list"
    else
      match ident.variant with
      | IdentVariant.single => getLoop m outObj
      | IdentVariant.multi =>
        match nns with
        | [] => Outcome.panicked
        | n0 :: _ =>
          match lookupNN m n0 with
          | none => Outcome.err "object not found"
          | some v => convertObj v.object outObj.gvk

/-- `ObjectCache.Status`: mark the entry for a status write.  The inner
map is indexed without a presence check, so a missing instance key is a
nil-pointer dereference (panic), not an error. -/
def cacheStatus (o : ObjectCache) (ident : ResourceIdent) (obj : K8sObject) :
    Outcome Unit × ObjectCache :=
  match lookupIdent o.data ident with
  | none => (Outcome.err "object cache not found, cannot update", o)
  | some m =>
    match lookupNN m obj.nn with
    | none => (Outcome.panicked, o)
    | some entry =>
      (Outcome.ok (), { o with data := dataSet o.data ident obj.nn { entry with status := true } })

/-- One staged triple of the batch (`ObjectToApply`). -/
structure ObjectToApply where
  ident : ResourceIdent
  nn : NamespacedName
  res : K8sResource
deriving DecidableEq, Repr

/-- `indexOf` of `resourceCache.go`: the position of `elem` in `data`, or
`-1` when absent. -/
def indexOfZ (elem : String) (data : List String) : Int :=
  match data with
  | [] => -1
  | v :: rest =>
    if elem = v then 0
    else
      let r := indexOfZ elem rest
      if r = -1 then -1 else r + 1

/-- The kind name used by `objectsToApply.Less`: the resolved kind of the
ident's type witness, or `"*"` when the kind fails to resolve. -/
def identKindName (scheme : List GroupVersionKind) (ident : ResourceIdent) : String :=
  match kindFromObjGVK scheme ident.typeGVK with
  | some gvk => gvk.kind
  | none => "*"

/-- The comparison key of the batch sort: the `indexOf` of the triple's
kind name in the ordering preference. -/
def sortKey (scheme : List GroupVersionKind) (order : List String) (t : ObjectToApply) : Int :=
  indexOfZ (identKindName scheme t.ident) order

/-- Insert into a list already sorted by `key`. -/
def insertByKey (key : ObjectToApply → Int) (x : ObjectToApply) :
    List ObjectToApply → List ObjectToApply
  | [] => [x]
  | y :: ys => if key x ≤ key y then x :: y :: ys else y :: insertByKey key x ys

/-- Sort by `key`.  `sort.Sort` guarantees only a permutation that is
non-decreasing in the `Less` order; insertion sort is the deterministic
representative used by the model. -/
def sortByKey (key : ObjectToApply → Int) : List ObjectToApply → List ObjectToApply
  | [] => []
  | x :: xs => insertByKey key x (sortByKey key xs)

/-- Flatten the two-level staging store into the batch list. -/
def flattenData (d : DataMap) : List ObjectToApply :=
  match d with
  | [] => []
  | (ident, m) :: rest =>
    m.map (fun p => { ident := ident, nn := p.1, res := p.2 }) ++ flattenData rest

/-- The sorted batch that `ApplyAll` hands to `applyResourceCache`. -/
def applySorted (o : ObjectCache) : List ObjectToApply :=
  sortByKey (sortKey o.scheme o.ordering) (flattenData o.data)

/-- The loop body of `applyResourceCache` for one staged triple: skip
`WriteNow` idents entirely; write via `Updater.Apply` unless the baseline
deep-equals the current value and the resource pre-existed; then the
status write if marked. -/
def applyOne (c : KClient) (v : ObjectToApply) : Option String × KClient :=
  if v.ident.writeNow then (none, c)
  else
    let step1 : Option String × KClient :=
      if ¬v.res.origObject = v.res.object ∨ v.res.update = false then
        updaterApply v.res.update c v.res.object
      else (none, c)
    match step1 with
    | (some e, c') => (some e, c')
    | (none, c') =>
      if v.res.status then clientStatusUpdate c' v.res.object
      else (none, c')

/-- `applyResourceCache`: apply the sorted triples in order, aborting at
the first error. -/
def applyResourceCache (c : KClient) (objs : List ObjectToApply) : Outcome Unit × KClient :=
  match objs with
  | [] => (Outcome.ok (), c)
  | v :: rest =>
    match applyOne c v with
    | (some e, c') => (Outcome.err e, c')
    | (none, c') => applyResourceCache c' rest

/-- `ObjectCache.ApplyAll`. -/
def cacheApplyAll (o : ObjectCache) (c : KClient) : Outcome Unit × KClient :=
  applyResourceCache c (applySorted o)

/-- The inner owner-reference loop of `Reconcile` for one listed object:
each reference whose UID equals the owner identity triggers a delete when
the instance key is not in the wanted set. -/
def reconcileRefs (c : KClient) (obj : K8sObject) (refs : List String) (ownedUID : String)
    (wanted : List NamespacedName) : Option String × KClient :=
  match refs with
  | [] => (none, c)
  | r :: rest =>
    if r = ownedUID then
      if obj.nn ∈ wanted then reconcileRefs c obj rest ownedUID wanted
      else
        match clientDelete c obj with
        | (some e, c') => (some e, c')
        | (none, c') => reconcileRefs c' obj rest ownedUID wanted
    else reconcileRefs c obj rest ownedUID wanted

/-- The listed-objects loop of `Reconcile` for one kind. -/
def reconcileObjs (c : KClient) (objs : List K8sObject) (ownedUID : String)
    (wanted : List NamespacedName) : Option String × KClient :=
  match objs with
  | [] => (none, c)
  | obj :: rest =>
    match reconcileRefs c obj obj.ownerRefs ownedUID wanted with
    | (some e, c') => (some e, c')
    | (none, c') => reconcileObjs c' rest ownedUID wanted

/-- The kind loop of `Reconcile`: protected kinds are skipped entirely;
each remaining kind is listed from the backing store and its stale owned
instances deleted. -/
def reconcileGVKs (o : ObjectCache) (c : KClient) (gvks : List GroupVersionKind)
    (ownedUID : String) : Option String × KClient :=
  match gvks with
  | [] => (none, c)
  | g :: rest =>
    if g ∈ o.protectedGVKs then reconcileGVKs o c rest ownedUID
    else
      match clientList c g with
      | (some e, _) => (some e, c)
      | (none, listed) =>
        match reconcileObjs c listed ownedUID (trackerGet o.resourceTracker g) with
        | (some e, c') => (some e, c')
        | (none, c') => reconcileGVKs o c' rest ownedUID

/-- `ObjectCache.Reconcile`. -/
def cacheReconcile (o : ObjectCache) (c : KClient) (ownedUID : String) :
    Outcome Unit × KClient :=
  match reconcileGVKs o c o.possibleGVKs ownedUID with
  | (some e, c') => (Outcome.err e, c')
  | (none, c') => (Outcome.ok (), c')

/-- The deletion predicate `Reconcile` implements: kind allowed and not
protected, an owner reference matching the owner identity, instance key
absent from the kind index. -/
def delPredB (o : ObjectCache) (ownedUID : String) (obj : K8sObject) : Bool :=
  decide (obj.gvk ∈ o.possibleGVKs) && !decide (obj.gvk ∈ o.protectedGVKs) &&
    decide (ownedUID ∈ obj.ownerRefs) && !decide (obj.nn ∈ trackerGet o.resourceTracker obj.gvk)

/-- The main (create/update) writes of a log, excluding status writes. -/
def isMainWrite : WriteOp → Bool
  | WriteOp.createOp _ => true
  | WriteOp.updateOp _ => true
  | _ => false

/-- Filter a write log down to create/update writes. -/
def mainWrites (log : List WriteOp) : List WriteOp := log.filter isMainWrite

/-- The Service gvk used in concrete scenarios. -/
def svcGVK : GroupVersionKind := { group := "", version := "v1", kind := "Service" }

/-- The ConfigMap gvk used in concrete scenarios. -/
def cmGVK : GroupVersionKind := { group := "", version := "v1", kind := "ConfigMap" }

/-- A registered scheme holding both concrete kinds. -/
def schemeTwo : List GroupVersionKind := [svcGVK, cmGVK]

/-- A concrete Service object. -/
def svcObj : K8sObject :=
  { gvk := svcGVK, nn := { ns := "default", name := "svc" }, typeName := "v1.Service",
    payload := 1, ownerRefs := [] }

/-- A concrete ConfigMap object. -/
def cmObj : K8sObject :=
  { gvk := cmGVK, nn := { ns := "default", name := "cm" }, typeName := "v1.ConfigMap",
    payload := 2, ownerRefs := [] }

/-- An ident of Service kind. -/
def svcIdent : ResourceIdent :=
  { provider := "TEST", purpose := "SVC", typeGVK := svcGVK, writeNow := false,
    variant := IdentVariant.single }

/-- An ident of ConfigMap kind. -/
def cmIdent : ResourceIdent :=
  { provider := "TEST", purpose := "CM", typeGVK := cmGVK, writeNow := false,
    variant := IdentVariant.single }

/-- A staged entry for a given object, as created from a not-found read. -/
def freshRes (obj : K8sObject) : K8sResource :=
  { object := obj, update := false, status := false, origObject := obj }

/-- An ordering preference in which the kind "Service" precedes the
wildcard entry. -/
def c1Order : List String := ["Service", "*"]

/-- A cache staging one Service entry and one ConfigMap entry under the
ordering `c1Order`; "ConfigMap" does not appear in the ordering. -/
def c1Cache : ObjectCache :=
  { data := [(svcIdent, [(svcObj.nn, freshRes svcObj)]),
             (cmIdent, [(cmObj.nn, freshRes cmObj)])],
    resourceTracker := [], possibleGVKs := [svcGVK, cmGVK], protectedGVKs := [],
    strictGVK := false, ordering := c1Order, scheme := schemeTwo }

theorem indexOfZ_ge (s : String) (l : List String) : -1 ≤ indexOfZ s l := by
  induction l with
  | nil => simp [indexOfZ]
  | cons v rest ih =>
    simp only [indexOfZ]
    split
    · norm_num
    · split
      · norm_num
      · omega

theorem insertByKey_perm (key : ObjectToApply → Int) (x : ObjectToApply) :
    ∀ l : List ObjectToApply, List.Perm (insertByKey key x l) (x :: l)
  | [] => by simp [insertByKey]
  | y :: ys => by
    simp only [insertByKey]
    split
    · exact List.Perm.refl _
    · exact ((insertByKey_perm key x ys).cons y).trans (List.Perm.swap x y ys)

theorem sortByKey_perm (key : ObjectToApply → Int) :
    ∀ l : List ObjectToApply, List.Perm (sortByKey key l) l
  | [] => List.Perm.refl _
  | x :: xs => (insertByKey_perm key x (sortByKey key xs)).trans ((sortByKey_perm key xs).cons x)

theorem insertByKey_sorted (key : ObjectToApply → Int) (x : ObjectToApply) :
    ∀ l : List ObjectToApply, l.Pairwise (fun a b => key a ≤ key b) →
      (insertByKey key x l).Pairwise (fun a b => key a ≤ key b)
  | [], _ => by simp [insertByKey]
  | y :: ys, h => by
    rw [List.pairwise_cons] at h
    simp only [insertByKey]
    split
    · rename_i hxy
      refine List.pairwise_cons.mpr ⟨?_, List.pairwise_cons.mpr h⟩
      intro z hz
      rcases List.mem_cons.mp hz with hzy | hz'
      · exact hzy ▸ hxy
      · exact le_trans hxy (h.1 z hz')
    · rename_i hxy
      refine List.pairwise_cons.mpr ⟨?_, insertByKey_sorted key x ys h.2⟩
      intro z hz
      rcases List.mem_cons.mp ((insertByKey_perm key x ys).mem_iff.mp hz) with hzx | hz'
      · exact hzx ▸ le_of_not_le hxy
      · exact h.1 z hz'

theorem sortByKey_sorted (key : ObjectToApply → Int) :
    ∀ l : List ObjectToApply, (sortByKey key l).Pairwise (fun a b => key a ≤ key b)
  | [] => List.Pairwise.nil
  | x :: xs => insertByKey_sorted key x (sortByKey key xs) (sortByKey_sorted key xs)

/-- C1, counterexample.  The ordering preference `["Service", "*"]` puts
the kind "Service" before the wildcard entry, and the cache `c1Cache`
stages one Service entry and one ConfigMap entry, "ConfigMap" being
absent from the list.  The claim says an absent kind maps to the index of
the `"*"` entry (here 1) and that the Service entry is written before the
ConfigMap entry; in the code `indexOf` yields `-1` for an absent kind, so
the ConfigMap entry sorts (and is written) first. -/
theorem C1_counterexample :
    indexOfZ "ConfigMap" c1Order = -1 ∧
    indexOfZ "ConfigMap" c1Order ≠ indexOfZ "*" c1Order ∧
    (applySorted c1Cache).map (fun t => identKindName c1Cache.scheme t.ident) =
      ["ConfigMap", "Service"] := by
  refine ⟨by decide, by decide, by decide⟩

/-- C1, amended.  In `ApplyAll`'s batch sort every staged triple's kind
name is mapped by `indexOf` to its position in the Ordering Preference;
a failure to resolve the kind uses the name `"*"`, and a kind name absent
from the list (including `"*"` itself when the list has no wildcard) maps
to `-1`, not to the wildcard's index.  The batch is written as a
permutation of the staged triples in ascending order of that index; in
particular every triple whose key is `-1` (kind absent from the list) is
written before every triple whose kind appears in the list. -/
theorem C1_apply_order (o : ObjectCache) :
    List.Perm (applySorted o) (flattenData o.data) ∧
    (applySorted o).Pairwise
      (fun a b => sortKey o.scheme o.ordering a ≤ sortKey o.scheme o.ordering b) ∧
    (applySorted o).Pairwise
      (fun a b => sortKey o.scheme o.ordering b = -1 → sortKey o.scheme o.ordering a = -1) := by
  refine ⟨sortByKey_perm _ _, sortByKey_sorted _ _, ?_⟩
  refine (sortByKey_sorted (sortKey o.scheme o.ordering) (flattenData o.data)).imp ?_
  intro a b hab hb
  have ha := indexOfZ_ge (identKindName o.scheme a.ident) o.ordering
  simp only [sortKey] at hab hb ⊢
  omega

/-- A failure configuration where every backing-store verb succeeds. -/
def noFails : FailCfg :=
  { failGet := none, failCreate := none, failUpdate := none, failStatus := none,
    failList := none, failDelete := none }

/-- A client with an empty store, empty log and no injected failures. -/
def cleanClient : KClient := { fails := noFails, store := [], log := [] }

/-- A ConfigMap object with an empty name. -/
def c2Obj : K8sObject :=
  { gvk := cmGVK, nn := { ns := "default", name := "" }, typeName := "v1.ConfigMap",
    payload := 0, ownerRefs := [] }

/-- A cache staging the empty-named object under a non-immediate ident,
with `update = false` (the resource did not exist before staging). -/
def c2Cache : ObjectCache :=
  { data := [(cmIdent, [(c2Obj.nn, freshRes c2Obj)])], resourceTracker := [],
    possibleGVKs := [cmGVK], protectedGVKs := [], strictGVK := false,
    ordering := ["*"], scheme := schemeTwo }

/-- C2, counterexample.  `c2Cache` stages a single entry under a
non-immediate identifier whose resource did not exist before staging
(`update = false`), so the claim requires `ApplyAll` to perform a
backing-store write (a create) for it; but the staged object's name is
empty and `Updater.Apply` silently skips the create, so `ApplyAll`
succeeds with zero backing-store writes. -/
theorem C2_counterexample :
    cmIdent.writeNow = false ∧
    (freshRes c2Obj).update = false ∧
    cacheApplyAll c2Cache cleanClient = (Outcome.ok (), cleanClient) := by
  refine ⟨rfl, rfl, by decide⟩

/-- C2, amended.  For a staged triple under a non-immediate identifier,
the loop body of `applyResourceCache` performs a main (create/update)
backing-store write iff the current value differs from the baseline by
deep structural equality or the entry did not exist before staging —
except that a create of an object with an empty name is silently skipped;
when it writes it creates if the entry did not exist before staging and
updates otherwise; when current equals baseline, the entry pre-existed
and no status write is marked, zero backing-store writes occur; triples
under immediate (`WriteNow`) identifiers are skipped entirely. -/
theorem C2_apply_write_suppression (c : KClient) (v : ObjectToApply)
    (hc : c.fails.failCreate = none) (hu : c.fails.failUpdate = none)
    (hs : c.fails.failStatus = none) (hlog : c.log = []) :
    (v.ident.writeNow = true → applyOne c v = (none, c)) ∧
    (v.ident.writeNow = false →
      ((mainWrites (applyOne c v).2.log ≠ [] ↔
         ((v.res.origObject ≠ v.res.object ∨ v.res.update = false) ∧
          (v.res.update = true ∨ v.res.object.nn.name ≠ ""))) ∧
       (v.res.update = false →
          mainWrites (applyOne c v).2.log = [] ∨
          mainWrites (applyOne c v).2.log = [WriteOp.createOp v.res.object]) ∧
       (v.res.update = true →
          mainWrites (applyOne c v).2.log = [] ∨
          mainWrites (applyOne c v).2.log = [WriteOp.updateOp v.res.object]) ∧
       (v.res.origObject = v.res.object → v.res.update = true → v.res.status = false →
          (applyOne c v).2.log = []))) := by
  constructor
  · intro hw
    simp [applyOne, hw]
  · intro hw
    by_cases heq : v.res.origObject = v.res.object <;>
      by_cases hupd : v.res.update = true <;>
      by_cases hname : v.res.object.nn.name = "" <;>
      by_cases hst : v.res.status = true <;>
      simp_all [applyOne, updaterApply, clientCreate, clientUpdate, clientStatusUpdate,
        mainWrites, isMainWrite]

/-- A well-named ConfigMap object for the C2 witness. -/
def c2wObj : K8sObject :=
  { gvk := cmGVK, nn := { ns := "default", name := "cm-w" }, typeName := "v1.ConfigMap",
    payload := 0, ownerRefs := [] }

/-- The staged triple for the C2 witness: fresh (did not pre-exist),
non-immediate, well-named. -/
def c2wTriple : ObjectToApply :=
  { ident := cmIdent, nn := c2wObj.nn, res := freshRes c2wObj }

theorem C2_apply_write_suppression_witness :
    mainWrites (applyOne cleanClient c2wTriple).2.log ≠ [] :=
  ((C2_apply_write_suppression cleanClient c2wTriple rfl rfl rfl rfl).2 rfl).1.mpr (by decide)

theorem lookupNN_setNN_self (m : EntryMap) (nn : NamespacedName) (r : K8sResource) :
    lookupNN (setNN m nn r) nn = some r := by
  induction m with
  | nil => simp [setNN, lookupNN]
  | cons p rest ih =>
    obtain ⟨k, v⟩ := p
    by_cases hk : k = nn <;> simp [setNN, lookupNN, hk, ih]

theorem lookupIdent_dataSet_self (d : DataMap) (i : ResourceIdent) (nn : NamespacedName)
    (r : K8sResource) :
    lookupIdent (dataSet d i nn r) i =
      some (match lookupIdent d i with
            | some m => setNN m nn r
            | none => [(nn, r)]) := by
  induction d with
  | nil => simp [dataSet, lookupIdent]
  | cons p rest ih =>
    obtain ⟨k, v⟩ := p
    by_cases hk : k = i <;> simp [dataSet, lookupIdent, hk, ih]

theorem lookupEntry_dataSet_self (d : DataMap) (i : ResourceIdent) (nn : NamespacedName)
    (r : K8sResource) : lookupEntry (dataSet d i nn r) i nn = some r := by
  rw [lookupEntry, lookupIdent_dataSet_self]
  cases lookupIdent d i with
  | none => simp [lookupNN]
  | some m => simp [lookupNN_setNN_self]

theorem mem_keys_setNN (m : EntryMap) (nn : NamespacedName) (r : K8sResource)
    (x : NamespacedName) :
    x ∈ (setNN m nn r).map Prod.fst ↔ x ∈ m.map Prod.fst ∨ x = nn := by
  induction m with
  | nil => simp [setNN]
  | cons p rest ih =>
    obtain ⟨k, v⟩ := p
    by_cases hk : k = nn
    · subst hk
      simp [setNN]
      tauto
    · simp [setNN, hk, ih]
      tauto

theorem setNN_keys_nodup (m : EntryMap) (nn : NamespacedName) (r : K8sResource)
    (h : (m.map Prod.fst).Nodup) : ((setNN m nn r).map Prod.fst).Nodup := by
  induction m with
  | nil => simp [setNN]
  | cons p rest ih =>
    obtain ⟨k, v⟩ := p
    simp only [List.map_cons, List.nodup_cons] at h
    by_cases hk : k = nn
    · simpa [setNN, hk, List.nodup_cons] using h
    · simp only [setNN, if_neg hk, List.map_cons, List.nodup_cons]
      refine ⟨?_, ih h.2⟩
      intro hmem
      rcases (mem_keys_setNN rest nn r k).mp hmem with h' | h'
      · exact h.1 h'
      · exact hk h'

/-- Keys-uniqueness of the two-level staging store: the outer identifier
keys are distinct and each inner map's instance keys are distinct. -/
def entryKeysNodup (d : DataMap) : Prop :=
  (d.map Prod.fst).Nodup ∧ ∀ p ∈ d, (p.2.map Prod.fst).Nodup

theorem mem_keys_dataSet (d : DataMap) (i : ResourceIdent) (nn : NamespacedName)
    (r : K8sResource) (x : ResourceIdent) :
    x ∈ (dataSet d i nn r).map Prod.fst ↔ x ∈ d.map Prod.fst ∨ x = i := by
  induction d with
  | nil => simp [dataSet]
  | cons p rest ih =>
    obtain ⟨k, v⟩ := p
    by_cases hk : k = i
    · subst hk
      simp [dataSet]
      tauto
    · simp [dataSet, hk, ih]
      tauto

theorem dataSet_nodup (d : DataMap) (i : ResourceIdent) (nn : NamespacedName)
    (r : K8sResource) : entryKeysNodup d → entryKeysNodup (dataSet d i nn r) := by
  induction d with
  | nil =>
    intro _
    refine ⟨by simp [dataSet], ?_⟩
    intro p hp
    have heq : dataSet [] i nn r = [(i, [(nn, r)])] := rfl
    rw [heq] at hp
    rcases List.mem_singleton.mp hp with rfl
    simp
  | cons q rest ih =>
    obtain ⟨k, v⟩ := q
    intro h
    obtain ⟨houter, hinner⟩ := h
    simp only [List.map_cons, List.nodup_cons] at houter
    by_cases hk : k = i
    · subst hk
      have heq : dataSet ((k, v) :: rest) k nn r = (k, setNN v nn r) :: rest := by
        simp [dataSet]
      rw [heq]
      refine ⟨?_, ?_⟩
      · simpa using And.intro houter.1 houter.2
      · intro p hp
        rcases List.mem_cons.mp hp with rfl | hp2
        · exact setNN_keys_nodup v nn r (hinner (k, v) (List.mem_cons_self _ _))
        · exact hinner p (List.mem_cons_of_mem _ hp2)
    · have heq : dataSet ((k, v) :: rest) i nn r = (k, v) :: dataSet rest i nn r := by
        simp [dataSet, hk]
      have ihres := ih ⟨houter.2, fun p hp => hinner p (List.mem_cons_of_mem _ hp)⟩
      rw [heq]
      refine ⟨?_, ?_⟩
      · simp only [List.map_cons, List.nodup_cons]
        refine ⟨?_, ihres.1⟩
        intro hmem
        rcases (mem_keys_dataSet rest i nn r k).mp hmem with h' | h'
        · exact houter.1 h'
        · exact hk h'
      · intro p hp
        rcases List.mem_cons.mp hp with rfl | hp2
        · exact hinner (k, v) (List.mem_cons_self _ _)
        · exact ihres.2 p hp2

theorem registerGVK_data (o : ObjectCache) (obj : K8sObject) :
    (registerGVK o obj).data = o.data ∧
    (registerGVK o obj).resourceTracker = o.resourceTracker ∧
    (registerGVK o obj).scheme = o.scheme ∧
    (registerGVK o obj).strictGVK = o.strictGVK := by
  by_cases h : ((kindFromObjGVK o.scheme obj.gvk).getD { group := "", version := "", kind := "" })
      ∈ o.possibleGVKs <;>
    simp [registerGVK, h]

theorem cacheCreateAfterGet_data (o : ObjectCache) (ident : ResourceIdent)
    (nn : NamespacedName) (object : K8sObject) (update : Bool) :
    (cacheCreateAfterGet o ident nn object update).2.data = o.data ∨
    ∃ r, (cacheCreateAfterGet o ident nn object update).2.data = dataSet o.data ident nn r := by
  unfold cacheCreateAfterGet
  rcases h1 : lookupEntry o.data ident nn with _ | r
  · rcases h2 : kindFromObjGVK o.scheme ident.typeGVK with _ | gvk
    · simp
    · rcases h3 : kindFromObjGVK o.scheme object.gvk with _ | obGVK
      · simp
      · by_cases h4 : gvk = obGVK
        · subst h4
          simp only [if_pos rfl]
          exact Or.inr ⟨_, rfl⟩
        · simp [h4]
  · simp

theorem cacheCreate_data (o : ObjectCache) (c : KClient) (ident : ResourceIdent)
    (nn : NamespacedName) (obj : K8sObject) :
    (cacheCreate o c ident nn obj).2.data = o.data ∨
    ∃ r, (cacheCreate o c ident nn obj).2.data = dataSet o.data ident nn r := by
  unfold cacheCreate cacheCreateGet
  have hreg := (registerGVK_data o obj).1
  split
  · rcases kindFromObjGVK o.scheme obj.gvk with _ | gvk
    · simp
    · by_cases hmem : gvk ∈ o.possibleGVKs
      · simp only [if_pos hmem]
        rcases clientGet c obj.gvk nn with stored | _ | e
        · exact cacheCreateAfterGet_data o ident nn stored true
        · exact cacheCreateAfterGet_data o ident nn obj false
        · simp
      · simp [hmem]
  · rcases clientGet c obj.gvk nn with stored | _ | e
    · rw [← hreg]
      exact cacheCreateAfterGet_data _ ident nn stored true
    · rw [← hreg]
      exact cacheCreateAfterGet_data _ ident nn obj false
    · simp [hreg]

/-- A cache staging one ConfigMap entry under `cmIdent`, used by the C4
scenarios. -/
def c4Cache : ObjectCache :=
  { data := [(cmIdent, [(cmObj.nn, freshRes cmObj)])], resourceTracker := [],
    possibleGVKs := [cmGVK], protectedGVKs := [], strictGVK := false,
    ordering := ["*"], scheme := schemeTwo }

/-- A ConfigMap object whose instance key is unknown under `cmIdent` in
`c4Cache`. -/
def c4Obj : K8sObject :=
  { gvk := cmGVK, nn := { ns := "default", name := "other" }, typeName := "v1.ConfigMap",
    payload := 3, ownerRefs := [] }

/-- A cache already staging `cmObj` under `cmIdent`, used by the C5
duplicate-create scenario. -/
def c5Cache : ObjectCache :=
  { data := [(cmIdent, [(cmObj.nn, freshRes cmObj)])],
    resourceTracker := [(cmGVK, [cmObj.nn])], possibleGVKs := [cmGVK], protectedGVKs := [],
    strictGVK := false, ordering := ["*"], scheme := schemeTwo }

/-- A Multi-variant identifier of Service kind. -/
def c10Ident : ResourceIdent :=
  { provider := "TEST", purpose := "MULTI", typeGVK := svcGVK, writeNow := false,
    variant := IdentVariant.multi }

/-- A cache staging one entry under the Multi-variant `c10Ident`. -/
def c10Cache : ObjectCache :=
  { data := [(c10Ident, [(svcObj.nn, freshRes svcObj)])], resourceTracker := [],
    possibleGVKs := [svcGVK], protectedGVKs := [], strictGVK := false,
    ordering := ["*"], scheme := schemeTwo }

/-- C4, counterexample.  `c4Cache` stages an entry under `cmIdent`; the
query object `c4Obj` carries an instance key that is unknown under that
identifier.  The claim says `Status` then returns a `CacheMissError`; in
the code `o.data[resourceIdent][nn].Status = true` dereferences the nil
entry pointer, a panic, not a returned error. -/
theorem C4_counterexample :
    (cacheStatus c4Cache cmIdent c4Obj).1 = Outcome.panicked ∧
    (cacheStatus c4Cache cmIdent c4Obj).1 ≠
      Outcome.err "object cache not found, cannot update" := by
  refine ⟨by decide, by decide⟩

/-- C4, amended.  `Status(identifier, object)` returns the cache-miss
error when the identifier has no staged entries; when the identifier is
known but the instance key derived from the object is unknown it panics
on a nil-entry dereference (no error value is returned); otherwise it
sets the entry's `NeedsStatusWrite` flag and returns no error.  The
operation takes no client argument: it performs no backing-store I/O. -/
theorem C4_status (o : ObjectCache) (ident : ResourceIdent) (obj : K8sObject) :
    (lookupIdent o.data ident = none →
      cacheStatus o ident obj = (Outcome.err "object cache not found, cannot update", o)) ∧
    (∀ m, lookupIdent o.data ident = some m → lookupNN m obj.nn = none →
      cacheStatus o ident obj = (Outcome.panicked, o)) ∧
    (∀ m e, lookupIdent o.data ident = some m → lookupNN m obj.nn = some e →
      cacheStatus o ident obj =
        (Outcome.ok (),
          { o with data := dataSet o.data ident obj.nn { e with status := true } })) := by
  refine ⟨fun h => by simp [cacheStatus, h], fun m h1 h2 => by simp [cacheStatus, h1, h2],
    fun m e h1 h2 => by simp [cacheStatus, h1, h2]⟩

theorem C4_status_witness :
    (cacheStatus c4Cache cmIdent cmObj).1 = Outcome.ok () := by
  have h := (C4_status c4Cache cmIdent cmObj).2.2 [(cmObj.nn, freshRes cmObj)]
      (freshRes cmObj) (by decide) (by decide)
  rw [h]

theorem cacheCreateAfterGet_dup (o : ObjectCache) (ident : ResourceIdent)
    (nn : NamespacedName) (x : K8sObject) (u : Bool) (r : K8sResource)
    (h : lookupEntry o.data ident nn = some r) :
    cacheCreateAfterGet o ident nn x u = (Outcome.err (dupCreateMsg nn), o) := by
  simp [cacheCreateAfterGet, h]

theorem cacheCreateGet_dup (o : ObjectCache) (c : KClient) (ident : ResourceIdent)
    (nn : NamespacedName) (obj : K8sObject) (r : K8sResource)
    (hget : c.fails.failGet = none) (h : lookupEntry o.data ident nn = some r) :
    cacheCreateGet o c ident nn obj = (Outcome.err (dupCreateMsg nn), o) := by
  rw [cacheCreateGet]
  rcases hg : clientGet c obj.gvk nn with stored | _ | e
  · exact cacheCreateAfterGet_dup o ident nn stored true r h
  · exact cacheCreateAfterGet_dup o ident nn obj false r h
  · rw [clientGet, hget] at hg
    rcases hsg : storeGet c.store obj.gvk nn with _ | x <;> rw [hsg] at hg <;> simp at hg

theorem cacheCreate_dup (o : ObjectCache) (c : KClient) (ident : ResourceIdent)
    (nn : NamespacedName) (obj : K8sObject) (r : K8sResource)
    (hstrict : o.strictGVK = false) (hget : c.fails.failGet = none)
    (hdup : lookupEntry o.data ident nn = some r) :
    cacheCreate o c ident nn obj = (Outcome.err (dupCreateMsg nn), registerGVK o obj) := by
  rw [cacheCreate, if_neg (by simp [hstrict])]
  refine cacheCreateGet_dup (registerGVK o obj) c ident nn obj r hget ?_
  rw [lookupEntry, (registerGVK_data o obj).1, ← lookupEntry]
  exact hdup

/-- C5.  A second `Create` for an (identifier, instance key) pair that is
already staged fails with the duplicate-entry error and changes neither
the staging store nor the kind index (strict mode off and a healthy read,
so that no earlier guard fires first); and `Create` preserves
keys-uniqueness of the staging store, so the store holds at most one
entry per (identifier, instance key) pair. -/
theorem C5_duplicate_create (o : ObjectCache) (c : KClient) (ident : ResourceIdent)
    (nn : NamespacedName) (obj : K8sObject) (r : K8sResource)
    (hstrict : o.strictGVK = false) (hget : c.fails.failGet = none)
    (hdup : lookupEntry o.data ident nn = some r) :
    (cacheCreate o c ident nn obj).1 = Outcome.err (dupCreateMsg nn) ∧
    (cacheCreate o c ident nn obj).2.data = o.data ∧
    (cacheCreate o c ident nn obj).2.resourceTracker = o.resourceTracker ∧
    (∀ (o' : ObjectCache) (c' : KClient) (ident' : ResourceIdent) (nn' : NamespacedName)
        (obj' : K8sObject), entryKeysNodup o'.data →
        entryKeysNodup (cacheCreate o' c' ident' nn' obj').2.data) := by
  have hc := cacheCreate_dup o c ident nn obj r hstrict hget hdup
  refine ⟨by rw [hc], ?_, ?_, ?_⟩
  · rw [hc]
    exact (registerGVK_data o obj).1
  · rw [hc]
    exact (registerGVK_data o obj).2.1
  · intro o' c' ident' nn' obj' hk
    rcases cacheCreate_data o' c' ident' nn' obj' with h | ⟨r', h⟩
    · rw [h]
      exact hk
    · rw [h]
      exact dataSet_nodup o'.data ident' nn' r' hk

theorem C5_duplicate_create_witness :
    (cacheCreate c5Cache cleanClient cmIdent cmObj.nn cmObj).1 =
      Outcome.err (dupCreateMsg cmObj.nn) :=
  (C5_duplicate_create c5Cache cleanClient cmIdent cmObj.nn cmObj (freshRes cmObj)
    rfl rfl (by decide)).1

/-- C10.  For a Multi-variant identifier with staged entries, `Get` with
zero instance keys does not return an error value: the argument-count
guard rejects only more than one key, and the zero-key case indexes the
empty variadic list — a panic; the same call with two or more keys is the
only case the guard turns into a returned error. -/
theorem C10_get_zero_keys (o : ObjectCache) (ident : ResourceIdent) (obj : K8sObject)
    (m : EntryMap) (hident : lookupIdent o.data ident = some m)
    (hvar : ident.variant = IdentVariant.multi) :
    cacheGet o ident obj [] = Outcome.panicked ∧
    (∀ nns : List NamespacedName, nns.length > 1 →
      cacheGet o ident obj nns =
        Outcome.err "cannot request more than one named item with get, use list") := by
  constructor
  · simp [cacheGet, hident, hvar]
  · intro nns hlen
    simp only [cacheGet, hident]
    rw [if_pos hlen]

theorem C10_get_zero_keys_witness :
    cacheGet c10Cache c10Ident svcObj [] = Outcome.panicked :=
  (C10_get_zero_keys c10Cache c10Ident svcObj [(svcObj.nn, freshRes svcObj)]
    (by decide) rfl).1

theorem cacheCreateGet_fresh (o : ObjectCache) (c : KClient) (ident : ResourceIdent)
    (nn : NamespacedName) (obj : K8sObject)
    (hget : c.fails.failGet = none)
    (hstore : storeGet c.store obj.gvk nn = none)
    (hfree : lookupEntry o.data ident nn = none)
    (htype : ident.typeGVK = obj.gvk)
    (hres : obj.gvk ∈ o.scheme) :
    cacheCreateGet o c ident nn obj =
      (Outcome.ok (),
        { o with resourceTracker := trackerAdd o.resourceTracker obj.gvk nn,
                 data := dataSet o.data ident nn (freshRes obj) }) := by
  rw [cacheCreateGet, clientGet, hget, hstore]
  simp [cacheCreateAfterGet, hfree, htype, kindFromObjGVK, hres, freshRes]

theorem cacheCreateAfterGet_struct (o : ObjectCache) (ident : ResourceIdent)
    (nn : NamespacedName) (x : K8sObject) (u : Bool) :
    (cacheCreateAfterGet o ident nn x u).2 = o ∨
    ∃ g, (cacheCreateAfterGet o ident nn x u).2 =
      { o with resourceTracker := trackerAdd o.resourceTracker g nn,
               data := dataSet o.data ident nn
                 { object := x, update := u, status := false, origObject := x } } := by
  rw [cacheCreateAfterGet]
  rcases h1 : lookupEntry o.data ident nn with _ | r
  · rcases h2 : kindFromObjGVK o.scheme ident.typeGVK with _ | gvk
    · simp
    · rcases h3 : kindFromObjGVK o.scheme x.gvk with _ | obGVK
      · simp
      · by_cases h4 : gvk = obGVK
        · subst h4
          simp only [if_pos rfl]
          exact Or.inr ⟨gvk, rfl⟩
        · simp [h4]
  · simp

theorem cacheCreateGet_possible (o : ObjectCache) (c : KClient) (ident : ResourceIdent)
    (nn : NamespacedName) (obj : K8sObject) :
    (cacheCreateGet o c ident nn obj).2.possibleGVKs = o.possibleGVKs := by
  rw [cacheCreateGet]
  rcases clientGet c obj.gvk nn with stored | _ | e
  · rcases cacheCreateAfterGet_struct o ident nn stored true with h | ⟨g, h⟩ <;> rw [h]
  · rcases cacheCreateAfterGet_struct o ident nn obj false with h | ⟨g, h⟩ <;> rw [h]
  · rfl

theorem registerGVK_mem (o : ObjectCache) (obj : K8sObject) (hres : obj.gvk ∈ o.scheme) :
    obj.gvk ∈ (registerGVK o obj).possibleGVKs := by
  have hk : (kindFromObjGVK o.scheme obj.gvk).getD { group := "", version := "", kind := "" }
      = obj.gvk := by
    simp [kindFromObjGVK, hres]
  by_cases h : obj.gvk ∈ o.possibleGVKs
  · simp [registerGVK, hk, h]
  · simp [registerGVK, hk, h]

theorem addPossibleGVKFromIdent_fields (o : ObjectCache) (ident : ResourceIdent) :
    (addPossibleGVKFromIdent o ident).data = o.data ∧
    (addPossibleGVKFromIdent o ident).resourceTracker = o.resourceTracker ∧
    (addPossibleGVKFromIdent o ident).scheme = o.scheme ∧
    (addPossibleGVKFromIdent o ident).strictGVK = o.strictGVK ∧
    (addPossibleGVKFromIdent o ident).protectedGVKs = o.protectedGVKs := by
  by_cases h : ((kindFromObjGVK o.scheme ident.typeGVK).getD { group := "", version := "", kind := "" })
      ∈ o.possibleGVKs <;>
    simp [addPossibleGVKFromIdent, h]

theorem addPossibleGVKFromIdent_mem (o : ObjectCache) (ident : ResourceIdent)
    (hres : ident.typeGVK ∈ o.scheme) :
    ident.typeGVK ∈ (addPossibleGVKFromIdent o ident).possibleGVKs := by
  have hk : (kindFromObjGVK o.scheme ident.typeGVK).getD { group := "", version := "", kind := "" }
      = ident.typeGVK := by
    simp [kindFromObjGVK, hres]
  by_cases h : ident.typeGVK ∈ o.possibleGVKs <;>
    simp [addPossibleGVKFromIdent, hk, h]

theorem cacheCreate_strict_fresh (o : ObjectCache) (c : KClient) (ident : ResourceIdent)
    (nn : NamespacedName) (obj : K8sObject)
    (hstrict : o.strictGVK = true)
    (hmem : obj.gvk ∈ o.possibleGVKs)
    (hres : obj.gvk ∈ o.scheme)
    (hget : c.fails.failGet = none)
    (hstore : storeGet c.store obj.gvk nn = none)
    (hfree : lookupEntry o.data ident nn = none)
    (htype : ident.typeGVK = obj.gvk) :
    cacheCreate o c ident nn obj =
      (Outcome.ok (),
        { o with resourceTracker := trackerAdd o.resourceTracker obj.gvk nn,
                 data := dataSet o.data ident nn (freshRes obj) }) := by
  rw [cacheCreate, if_pos hstrict]
  have hk : kindFromObjGVK o.scheme obj.gvk = some obj.gvk := by
    simp [kindFromObjGVK, hres]
  rw [hk]
  simp only [if_pos hmem]
  exact cacheCreateGet_fresh o c ident nn obj hget hstore hfree htype hres

/-- C6.  With strict mode on, `Create` for an object whose (resolvable)
kind is not in the allowed set fails with the unregistered-kind error and
leaves the cache untouched; after `AddPossibleGVKFromIdent` registers the
kind (through an ident whose type witness carries it), the same `Create`
succeeds.  With strict mode off, `Create` auto-registers the object's
kind into the allowed set as a side effect, whatever else happens. -/
theorem C6_strict_registration (o : ObjectCache) (c : KClient) (ident : ResourceIdent)
    (nn : NamespacedName) (obj : K8sObject)
    (hres : obj.gvk ∈ o.scheme)
    (hget : c.fails.failGet = none)
    (hstore : storeGet c.store obj.gvk nn = none)
    (hfree : lookupEntry o.data ident nn = none)
    (htype : ident.typeGVK = obj.gvk) :
    (o.strictGVK = true → obj.gvk ∉ o.possibleGVKs →
      cacheCreate o c ident nn obj = (Outcome.err (unregisteredMsg obj.gvk), o)) ∧
    (o.strictGVK = true →
      (cacheCreate (addPossibleGVKFromIdent o ident) c ident nn obj).1 = Outcome.ok ()) ∧
    (o.strictGVK = false →
      obj.gvk ∈ (cacheCreate o c ident nn obj).2.possibleGVKs) := by
  refine ⟨?_, ?_, ?_⟩
  · intro hstrict hnot
    rw [cacheCreate, if_pos hstrict]
    have hk : kindFromObjGVK o.scheme obj.gvk = some obj.gvk := by
      simp [kindFromObjGVK, hres]
    rw [hk]
    simp [hnot]
  · intro hstrict
    have hf := addPossibleGVKFromIdent_fields o ident
    have hmem : obj.gvk ∈ (addPossibleGVKFromIdent o ident).possibleGVKs := by
      have hw : ident.typeGVK ∈ o.scheme := by
        rw [htype]
        exact hres
      have h2 := addPossibleGVKFromIdent_mem o ident hw
      rw [htype] at h2
      exact h2
    have hc := cacheCreate_strict_fresh (addPossibleGVKFromIdent o ident) c ident nn obj
      (by rw [hf.2.2.2.1]; exact hstrict) hmem
      (by rw [hf.2.2.1]; exact hres) hget hstore
      (by rw [lookupEntry, hf.1, ← lookupEntry]; exact hfree) htype
    rw [hc]
  · intro hstrict
    rw [cacheCreate, if_neg (by simp [hstrict])]
    rw [cacheCreateGet_possible]
    exact registerGVK_mem o obj hres

/-- An ident of ConfigMap kind for the strict-mode scenario. -/
def c6Ident : ResourceIdent :=
  { provider := "TEST", purpose := "STRICT", typeGVK := cmGVK, writeNow := false,
    variant := IdentVariant.single }

/-- An empty strict-mode cache whose allowed-kind set is empty. -/
def c6Cache : ObjectCache :=
  { data := [], resourceTracker := [], possibleGVKs := [], protectedGVKs := [],
    strictGVK := true, ordering := ["*"], scheme := schemeTwo }

theorem C6_strict_registration_witness :
    cacheCreate c6Cache cleanClient c6Ident cmObj.nn cmObj =
      (Outcome.err (unregisteredMsg cmObj.gvk), c6Cache) ∧
    (cacheCreate (addPossibleGVKFromIdent c6Cache c6Ident) cleanClient c6Ident
      cmObj.nn cmObj).1 = Outcome.ok () := by
  have h := C6_strict_registration c6Cache cleanClient c6Ident cmObj.nn cmObj
    (by decide) rfl (by decide) (by decide) rfl
  exact ⟨h.1 rfl (by decide), h.2.1 rfl⟩

/-- C7.  `Create` of an object that does not already exist in the backing
store, followed by `Get` on the same (Single-variant) identifier,
populates the caller's object with a value structurally equal to the
created object (the model carries no store-assigned metadata, so the
equality is exact). -/
theorem C7_create_then_get (o : ObjectCache) (c : KClient) (ident : ResourceIdent)
    (nn : NamespacedName) (obj out : K8sObject)
    (hstrict : o.strictGVK = false)
    (hget : c.fails.failGet = none)
    (hstore : storeGet c.store obj.gvk nn = none)
    (hnoident : lookupIdent o.data ident = none)
    (htype : ident.typeGVK = obj.gvk)
    (hres : obj.gvk ∈ o.scheme)
    (hsingle : ident.variant = IdentVariant.single)
    (hout : out.gvk = obj.gvk) :
    (cacheCreate o c ident nn obj).1 = Outcome.ok () ∧
    cacheGet (cacheCreate o c ident nn obj).2 ident out [] = Outcome.ok obj := by
  have h1 := registerGVK_data o obj
  have hfree' : lookupEntry (registerGVK o obj).data ident nn = none := by
    simp [lookupEntry, h1.1, hnoident]
  have hres' : obj.gvk ∈ (registerGVK o obj).scheme := by
    rw [h1.2.2.1]
    exact hres
  have hc : cacheCreate o c ident nn obj =
      (Outcome.ok (),
        { registerGVK o obj with
            resourceTracker := trackerAdd (registerGVK o obj).resourceTracker obj.gvk nn,
            data := dataSet (registerGVK o obj).data ident nn (freshRes obj) }) := by
    rw [cacheCreate, if_neg (by simp [hstrict])]
    exact cacheCreateGet_fresh (registerGVK o obj) c ident nn obj hget hstore hfree' htype hres'
  refine ⟨by rw [hc], ?_⟩
  rw [hc]
  simp only [cacheGet, lookupIdent_dataSet_self, h1.1, hnoident]
  simp [hsingle, getLoop, convertObj, freshRes, hout]

/-- A fresh single-variant cache for the C7 witness. -/
def c7Cache : ObjectCache :=
  { data := [], resourceTracker := [], possibleGVKs := [], protectedGVKs := [],
    strictGVK := false, ordering := ["*"], scheme := schemeTwo }

/-- The caller's empty out-object for the C7 witness. -/
def c7Out : K8sObject :=
  { gvk := svcGVK, nn := { ns := "", name := "" }, typeName := "v1.Service",
    payload := 0, ownerRefs := [] }

theorem C7_create_then_get_witness :
    cacheGet (cacheCreate c7Cache cleanClient svcIdent svcObj.nn svcObj).2
      svcIdent c7Out [] = Outcome.ok svcObj :=
  (C7_create_then_get c7Cache cleanClient svcIdent svcObj.nn svcObj c7Out
    rfl rfl (by decide) (by decide) rfl (by decide) rfl (by decide)).2

/-- C8.  Within one pass, a successful `Update` of a staged entry under a
non-immediate identifier replaces the entry's current value with the new
object; a subsequent `Get` of that (identifier, instance key) returns the
updated value (read-your-writes), and the entry's baseline (`origObject`)
is not mutated by `Update`. -/
theorem C8_update_then_get (o : ObjectCache) (c : KClient) (ident : ResourceIdent)
    (e : K8sResource) (newObj out : K8sObject) (m : EntryMap)
    (hm : lookupIdent o.data ident = some m)
    (hentry : lookupNN m newObj.nn = some e)
    (hwn : ident.writeNow = false)
    (htype : ident.typeGVK = newObj.gvk)
    (hres : newObj.gvk ∈ o.scheme)
    (hvar : ident.variant = IdentVariant.multi)
    (hout : out.gvk = newObj.gvk) :
    (cacheUpdate o c ident newObj).1 = Outcome.ok () ∧
    cacheGet (cacheUpdate o c ident newObj).2.1 ident out [newObj.nn] = Outcome.ok newObj ∧
    lookupEntry (cacheUpdate o c ident newObj).2.1.data ident newObj.nn =
      some { e with object := newObj } := by
  have hc : cacheUpdate o c ident newObj =
      (Outcome.ok (),
        { o with data := dataSet o.data ident newObj.nn { e with object := newObj } }, c) := by
    simp [cacheUpdate, hm, hentry, kindFromObjGVK, htype, hres, hwn]
  refine ⟨by rw [hc], ?_, ?_⟩
  · rw [hc]
    have hlook : lookupIdent (dataSet o.data ident newObj.nn { e with object := newObj }) ident =
        some (setNN m newObj.nn { e with object := newObj }) := by
      rw [lookupIdent_dataSet_self, hm]
    simp [cacheGet, hlook, hvar, lookupNN_setNN_self, convertObj, hout]
  · rw [hc]
    exact lookupEntry_dataSet_self o.data ident newObj.nn { e with object := newObj }

/-- The staged entry for the C8 witness, pre-existing and unchanged. -/
def c8Entry : K8sResource :=
  { object := svcObj, update := true, status := false, origObject := svcObj }

/-- A cache staging `c8Entry` under the Multi-variant `c10Ident`. -/
def c8Cache : ObjectCache :=
  { data := [(c10Ident, [(svcObj.nn, c8Entry)])], resourceTracker := [],
    possibleGVKs := [svcGVK], protectedGVKs := [], strictGVK := false,
    ordering := ["*"], scheme := schemeTwo }

/-- The updated object of the C8 witness. -/
def c8New : K8sObject := { svcObj with payload := 42 }

theorem C8_update_then_get_witness :
    cacheGet (cacheUpdate c8Cache cleanClient c10Ident c8New).2.1 c10Ident c7Out
      [c8New.nn] = Outcome.ok c8New ∧
    lookupEntry (cacheUpdate c8Cache cleanClient c10Ident c8New).2.1.data c10Ident
      c8New.nn = some { c8Entry with object := c8New } :=
  ⟨(C8_update_then_get c8Cache cleanClient c10Ident c8Entry c8New c7Out
      [(svcObj.nn, c8Entry)] (by decide) (by decide) rfl rfl (by decide) rfl rfl).2.1,
   (C8_update_then_get c8Cache cleanClient c10Ident c8Entry c8New c7Out
      [(svcObj.nn, c8Entry)] (by decide) (by decide) rfl rfl (by decide) rfl rfl).2.2⟩

/-- The pre-existing stored object of the C9 scenarios. -/
def c9Old : K8sObject :=
  { gvk := cmGVK, nn := { ns := "default", name := "test" }, typeName := "v1.ConfigMap",
    payload := 0, ownerRefs := [] }

/-- The modified value supplied to the failing immediate `Update`. -/
def c9New : K8sObject := { c9Old with payload := 1 }

/-- An immediate (`WriteNow`) identifier of ConfigMap kind. -/
def c9Ident : ResourceIdent :=
  { provider := "TEST", purpose := "NOW", typeGVK := cmGVK, writeNow := true,
    variant := IdentVariant.single }

/-- The staged entry: pre-existing, baseline equal to the stored value. -/
def c9Entry : K8sResource :=
  { object := c9Old, update := true, status := false, origObject := c9Old }

/-- A cache staging `c9Entry` under the immediate identifier. -/
def c9Cache : ObjectCache :=
  { data := [(c9Ident, [(c9Old.nn, c9Entry)])], resourceTracker := [],
    possibleGVKs := [cmGVK], protectedGVKs := [], strictGVK := false,
    ordering := ["*"], scheme := schemeTwo }

/-- A client whose update verb fails with the backing-store error "boom". -/
def c9Client : KClient :=
  { fails := { noFails with failUpdate := some "boom" }, store := [c9Old], log := [] }

/-- C9, counterexample.  An `Update` on an immediate identifier whose
write-through fails with the backing-store error "boom" returns the error
wrapped by `Updater.Apply` ("error updating resource ConfigMap test:
boom"), not the unmodified "boom"; the cache entry is (as the claim also
says) not rolled back — its current value holds the new object. -/
theorem C9_counterexample :
    (cacheUpdate c9Cache c9Client c9Ident c9New).1 =
      Outcome.err "error updating resource ConfigMap test: boom" ∧
    (cacheUpdate c9Cache c9Client c9Ident c9New).1 ≠ Outcome.err "boom" ∧
    lookupEntry (cacheUpdate c9Cache c9Client c9Ident c9New).2.1.data c9Ident c9New.nn =
      some { c9Entry with object := c9New } := by
  refine ⟨by decide, by decide, by decide⟩

/-- C9, amended.  For an `Update` on an immediate identifier whose
pre-existing entry differs from the new value and whose backing-store
update fails, the error is returned wrapped by `Updater.Apply` with the
verb, kind and object name ("error updating resource <kind> <name>:
<err>") — not unmodified — and nothing is rolled back in the cache: the
entry's current value still holds the newly supplied object, and the
backing store itself is untouched. -/
theorem C9_immediate_update_error (o : ObjectCache) (c : KClient) (ident : ResourceIdent)
    (e : K8sResource) (newObj : K8sObject) (m : EntryMap) (msg : String)
    (hm : lookupIdent o.data ident = some m)
    (hentry : lookupNN m newObj.nn = some e)
    (hwn : ident.writeNow = true)
    (htype : ident.typeGVK = newObj.gvk)
    (hres : newObj.gvk ∈ o.scheme)
    (hfail : c.fails.failUpdate = some msg)
    (hupd : e.update = true)
    (hneq : e.origObject ≠ newObj) :
    (cacheUpdate o c ident newObj).1 =
      Outcome.err ("error updating resource " ++ applyKindName newObj ++ " " ++
        newObj.nn.name ++ ": " ++ msg) ∧
    lookupEntry (cacheUpdate o c ident newObj).2.1.data ident newObj.nn =
      some { e with object := newObj } ∧
    (cacheUpdate o c ident newObj).2.2 = c := by
  have hc : cacheUpdate o c ident newObj =
      (Outcome.err ("error updating resource " ++ applyKindName newObj ++ " " ++
          newObj.nn.name ++ ": " ++ msg),
        { o with data := dataSet o.data ident newObj.nn { e with object := newObj } }, c) := by
    simp [cacheUpdate, hm, hentry, kindFromObjGVK, htype, hres, hwn, writeNowStep,
      updaterApply, clientUpdate, hfail, hupd, hneq]
  refine ⟨by rw [hc], ?_, by rw [hc]⟩
  rw [hc]
  exact lookupEntry_dataSet_self o.data ident newObj.nn { e with object := newObj }

theorem C9_immediate_update_error_witness :
    (cacheUpdate c9Cache c9Client c9Ident c9New).2.2 = c9Client :=
  (C9_immediate_update_error c9Cache c9Client c9Ident c9Entry c9New
    [(c9Old.nn, c9Entry)] "boom" (by decide) (by decide) rfl rfl (by decide) rfl rfl
    (by decide)).2.2

theorem storeList_eq_filter (l : List K8sObject) (g : GroupVersionKind) :
    storeList l g = l.filter (fun o => decide (o.gvk = g)) := by
  induction l with
  | nil => rfl
  | cons o rest ih =>
    by_cases h : o.gvk = g <;> simp [storeList, h, ih]

theorem storeErase_eq_filter (l : List K8sObject) (a : K8sObject) (h : l.Nodup) :
    storeErase l a = l.filter (fun x => !decide (x = a)) := by
  induction l with
  | nil => rfl
  | cons o rest ih =>
    rw [List.nodup_cons] at h
    by_cases ho : o = a
    · subst ho
      have hr : rest.filter (fun x => !decide (x = o)) = rest :=
        List.filter_eq_self.mpr (fun x hx => by
          have hxo : x ≠ o := fun he => h.1 (he ▸ hx)
          simp [hxo])
      simp [storeErase, hr]
    · simp [storeErase, ho, ih h.2]

theorem filter_filter_bool (p q : K8sObject → Bool) (l : List K8sObject) :
    (l.filter p).filter q = l.filter (fun a => p a && q a) := by
  induction l with
  | nil => rfl
  | cons o rest ih =>
    by_cases hp : p o <;> by_cases hq : q o <;> simp [List.filter_cons, hp, hq, ih]

theorem filter_congr_bool (p q : K8sObject → Bool) (l : List K8sObject)
    (h : ∀ x ∈ l, p x = q x) : l.filter p = l.filter q := by
  induction l with
  | nil => rfl
  | cons o rest ih =>
    rw [List.filter_cons, List.filter_cons, h o (List.mem_cons_self _ _),
      ih (fun x hx => h x (List.mem_cons_of_mem _ hx))]

/-- The per-kind deletion predicate over an already-listed batch `objs`:
the instance is in the batch, carries a matching owner reference, and its
key is not in the wanted set. -/
def objDelB (uid : String) (wanted : List NamespacedName) (objs : List K8sObject)
    (x : K8sObject) : Bool :=
  decide (x ∈ objs) && decide (uid ∈ x.ownerRefs) && !decide (x.nn ∈ wanted)

/-- The deletion predicate of the kind loop restricted to a set of kinds. -/
def kindDelB (o : ObjectCache) (uid : String) (gvks : List GroupVersionKind)
    (x : K8sObject) : Bool :=
  decide (x.gvk ∈ gvks) && !decide (x.gvk ∈ o.protectedGVKs) &&
    decide (uid ∈ x.ownerRefs) && !decide (x.nn ∈ trackerGet o.resourceTracker x.gvk)

theorem reconcileRefs_spec (uid : String) (wanted : List NamespacedName) (obj : K8sObject) :
    ∀ (refs : List String) (c : KClient), refs.Nodup → c.fails.failDelete = none →
      ((uid ∈ refs ∧ obj.nn ∉ wanted) → obj ∈ c.store) →
      reconcileRefs c obj refs uid wanted =
        (if uid ∈ refs ∧ obj.nn ∉ wanted then
          (none, { c with store := storeErase c.store obj,
                          log := c.log ++ [WriteOp.deleteOp obj] })
        else (none, c)) := by
  intro refs
  induction refs with
  | nil =>
    intro c _ _ _
    simp [reconcileRefs]
  | cons r rest ih =>
    intro c hnd hdel hmem
    rw [List.nodup_cons] at hnd
    by_cases hr : r = uid
    · subst hr
      by_cases hw : obj.nn ∈ wanted
      · rw [reconcileRefs, if_pos rfl, if_pos hw]
        rw [ih c hnd.2 hdel (fun h => absurd hw h.2)]
        rw [if_neg (fun h => h.2 hw), if_neg (fun h => h.2 hw)]
      · have hobj : obj ∈ c.store := hmem ⟨List.mem_cons_self _ _, hw⟩
        have hdelete : clientDelete c obj =
            (none, { c with store := storeErase c.store obj,
                            log := c.log ++ [WriteOp.deleteOp obj] }) := by
          rw [clientDelete, hdel, if_pos hobj]
        rw [reconcileRefs, if_pos rfl, if_neg hw]
        simp only [hdelete]
        rw [ih { c with store := storeErase c.store obj, log := c.log ++ [WriteOp.deleteOp obj] }
          hnd.2 hdel (fun h => absurd h.1 hnd.1)]
        rw [if_neg (fun h => hnd.1 h.1), if_pos ⟨List.mem_cons_self _ _, hw⟩]
    · rw [reconcileRefs, if_neg hr]
      rw [ih c hnd.2 hdel (fun h => hmem ⟨List.mem_cons_of_mem _ h.1, h.2⟩)]
      by_cases hm : uid ∈ rest ∧ obj.nn ∉ wanted
      · rw [if_pos hm, if_pos ⟨List.mem_cons_of_mem _ hm.1, hm.2⟩]
      · rw [if_neg hm,
          if_neg (fun h => hm ⟨(List.mem_cons.mp h.1).resolve_left (fun he => hr he.symm), h.2⟩)]

theorem objDelB_step_del (uid : String) (wanted : List NamespacedName) (obj : K8sObject)
    (rest : List K8sObject) (h1 : uid ∈ obj.ownerRefs) (h2 : obj.nn ∉ wanted)
    (hg : obj ∉ rest) (x : K8sObject) :
    (!decide (x = obj) && !objDelB uid wanted rest x) = !objDelB uid wanted (obj :: rest) x := by
  by_cases hx : x = obj
  · subst hx
    simp [objDelB, h1, h2, hg]
  · simp [objDelB, List.mem_cons, hx]

theorem objDelB_step_skip (uid : String) (wanted : List NamespacedName) (obj : K8sObject)
    (rest : List K8sObject) (hcond : ¬(uid ∈ obj.ownerRefs ∧ obj.nn ∉ wanted))
    (hg : obj ∉ rest) (x : K8sObject) :
    objDelB uid wanted (obj :: rest) x = objDelB uid wanted rest x := by
  by_cases hx : x = obj
  · subst hx
    by_cases ha : uid ∈ x.ownerRefs <;> by_cases hb : x.nn ∈ wanted <;>
      first
      | (simp [objDelB, ha, hb, hg]; tauto)
      | simp [objDelB, ha, hb, hg]
  · simp [objDelB, List.mem_cons, hx]

theorem reconcileObjs_spec (uid : String) (wanted : List NamespacedName) :
    ∀ (objs : List K8sObject) (c : KClient),
      c.fails.failDelete = none →
      (∀ x ∈ objs, x.ownerRefs.Nodup) →
      objs.Nodup →
      (∀ x ∈ objs, x ∈ c.store) →
      c.store.Nodup →
      (reconcileObjs c objs uid wanted).1 = none ∧
      (reconcileObjs c objs uid wanted).2.store =
        c.store.filter (fun x => !objDelB uid wanted objs x) ∧
      (reconcileObjs c objs uid wanted).2.fails = c.fails := by
  intro objs
  induction objs with
  | nil =>
    intro c _ _ _ _ _
    refine ⟨rfl, ?_, rfl⟩
    symm
    apply List.filter_eq_self.mpr
    intro x hx
    simp [objDelB]
  | cons obj rest ih =>
    intro c hdel hrefs hnd hsub hstore
    rw [List.nodup_cons] at hnd
    have hrspec := reconcileRefs_spec uid wanted obj obj.ownerRefs c
      (hrefs obj (List.mem_cons_self _ _)) hdel
      (fun _ => hsub obj (List.mem_cons_self _ _))
    by_cases hcond : uid ∈ obj.ownerRefs ∧ obj.nn ∉ wanted
    · have hstep : reconcileRefs c obj obj.ownerRefs uid wanted =
          (none, { c with store := storeErase c.store obj,
                          log := c.log ++ [WriteOp.deleteOp obj] }) := by
        rw [hrspec, if_pos hcond]
      have hred : reconcileObjs c (obj :: rest) uid wanted =
          reconcileObjs { c with store := storeErase c.store obj,
                                 log := c.log ++ [WriteOp.deleteOp obj] } rest uid wanted := by
        rw [reconcileObjs]
        simp only [hstep]
      have hsub₁ : ∀ x ∈ rest,
          x ∈ ({ c with store := storeErase c.store obj,
                        log := c.log ++ [WriteOp.deleteOp obj] } : KClient).store := by
        intro x hx
        have hxs : x ∈ c.store := hsub x (List.mem_cons_of_mem _ hx)
        have hxo : x ≠ obj := fun he => hnd.1 (he ▸ hx)
        show x ∈ storeErase c.store obj
        rw [storeErase_eq_filter c.store obj hstore]
        simp [List.mem_filter, hxs, hxo]
      have hnod₁ : (storeErase c.store obj).Nodup := by
        rw [storeErase_eq_filter c.store obj hstore]
        exact hstore.filter _
      have hih := ih { c with store := storeErase c.store obj,
                              log := c.log ++ [WriteOp.deleteOp obj] }
        hdel (fun x hx => hrefs x (List.mem_cons_of_mem _ hx)) hnd.2 hsub₁ hnod₁
      rw [hred]
      refine ⟨hih.1, ?_, hih.2.2⟩
      rw [hih.2.1]
      show (storeErase c.store obj).filter _ = _
      rw [storeErase_eq_filter c.store obj hstore, filter_filter_bool]
      apply filter_congr_bool
      intro x hx
      exact objDelB_step_del uid wanted obj rest hcond.1 hcond.2 hnd.1 x
    · have hstep : reconcileRefs c obj obj.ownerRefs uid wanted = (none, c) := by
        rw [hrspec, if_neg hcond]
      have hred : reconcileObjs c (obj :: rest) uid wanted =
          reconcileObjs c rest uid wanted := by
        rw [reconcileObjs]
        simp only [hstep]
      have hih := ih c hdel (fun x hx => hrefs x (List.mem_cons_of_mem _ hx)) hnd.2
        (fun x hx => hsub x (List.mem_cons_of_mem _ hx)) hstore
      rw [hred]
      refine ⟨hih.1, ?_, hih.2.2⟩
      rw [hih.2.1]
      apply filter_congr_bool
      intro x hx
      rw [objDelB_step_skip uid wanted obj rest hcond hnd.1 x]

theorem kindDelB_protected (o : ObjectCache) (uid : String) (g : GroupVersionKind)
    (rest : List GroupVersionKind) (hp : g ∈ o.protectedGVKs) (hg : g ∉ rest)
    (x : K8sObject) : kindDelB o uid (g :: rest) x = kindDelB o uid rest x := by
  by_cases hx : x.gvk = g
  · simp [kindDelB, hx, hp, hg]
  · simp [kindDelB, List.mem_cons, hx]

theorem kindDelB_step (o : ObjectCache) (uid : String) (g : GroupVersionKind)
    (rest : List GroupVersionKind) (store : List K8sObject)
    (hp : g ∉ o.protectedGVKs) (hg : g ∉ rest) (x : K8sObject) (hx : x ∈ store) :
    (!objDelB uid (trackerGet o.resourceTracker g) (storeList store g) x &&
      !kindDelB o uid rest x) = !kindDelB o uid (g :: rest) x := by
  by_cases hxg : x.gvk = g
  · have hmem : x ∈ storeList store g := by
      rw [storeList_eq_filter]
      simp [List.mem_filter, hx, hxg]
    have hnotrest : ¬x.gvk ∈ rest := by
      rw [hxg]
      exact hg
    by_cases h1 : uid ∈ x.ownerRefs <;>
      by_cases h2 : x.nn ∈ trackerGet o.resourceTracker g <;>
      simp [objDelB, kindDelB, hmem, hxg, hp, hnotrest, h1, h2]
  · have hmem : ¬x ∈ storeList store g := by
      rw [storeList_eq_filter]
      simp [List.mem_filter, hxg]
    simp [objDelB, kindDelB, hmem, List.mem_cons, hxg]

theorem reconcileGVKs_spec (o : ObjectCache) (uid : String) :
    ∀ (gvks : List GroupVersionKind) (c : KClient),
      c.fails.failList = none → c.fails.failDelete = none →
      (∀ x ∈ c.store, x.ownerRefs.Nodup) → c.store.Nodup → gvks.Nodup →
      (reconcileGVKs o c gvks uid).1 = none ∧
      (reconcileGVKs o c gvks uid).2.store =
        c.store.filter (fun x => !kindDelB o uid gvks x) ∧
      (reconcileGVKs o c gvks uid).2.fails = c.fails := by
  intro gvks
  induction gvks with
  | nil =>
    intro c _ _ _ _ _
    refine ⟨rfl, ?_, rfl⟩
    symm
    apply List.filter_eq_self.mpr
    intro x hx
    simp [kindDelB]
  | cons g rest ih =>
    intro c hlist hdel hrefs hstore hnd
    rw [List.nodup_cons] at hnd
    by_cases hp : g ∈ o.protectedGVKs
    · have hred : reconcileGVKs o c (g :: rest) uid = reconcileGVKs o c rest uid := by
        rw [reconcileGVKs, if_pos hp]
      have hih := ih c hlist hdel hrefs hstore hnd.2
      rw [hred]
      refine ⟨hih.1, ?_, hih.2.2⟩
      rw [hih.2.1]
      apply filter_congr_bool
      intro x hx
      rw [kindDelB_protected o uid g rest hp hnd.1 x]
    · have hclist : clientList c g = (none, storeList c.store g) := by
        rw [clientList, hlist]
      have hlsub : ∀ x ∈ storeList c.store g, x ∈ c.store := by
        intro x hx
        rw [storeList_eq_filter] at hx
        exact (List.mem_filter.mp hx).1
      have hlnodup : (storeList c.store g).Nodup := by
        rw [storeList_eq_filter]
        exact hstore.filter _
      have hospec := reconcileObjs_spec uid (trackerGet o.resourceTracker g)
        (storeList c.store g) c hdel (fun x hx => hrefs x (hlsub x hx)) hlnodup hlsub hstore
      rcases hro : reconcileObjs c (storeList c.store g) uid (trackerGet o.resourceTracker g)
        with ⟨r1, c'⟩
      rw [hro] at hospec
      have h1 : r1 = none := hospec.1
      subst h1
      have h2 : c'.store = c.store.filter
          (fun x => !objDelB uid (trackerGet o.resourceTracker g) (storeList c.store g) x) :=
        hospec.2.1
      have h3 : c'.fails = c.fails := hospec.2.2
      have hred : reconcileGVKs o c (g :: rest) uid = reconcileGVKs o c' rest uid := by
        rw [reconcileGVKs, if_neg hp]
        simp only [hclist, hro]
      have hih := ih c' (by rw [h3]; exact hlist) (by rw [h3]; exact hdel)
        (fun x hx => hrefs x (by rw [h2] at hx; exact (List.mem_filter.mp hx).1))
        (by rw [h2]; exact hstore.filter _) hnd.2
      rw [hred]
      refine ⟨hih.1, ?_, by rw [hih.2.2, h3]⟩
      rw [hih.2.1, h2, filter_filter_bool]
      apply filter_congr_bool
      intro x hx
      exact kindDelB_step o uid g rest c.store hp hnd.1 x hx

/-- C3.  `Reconcile(ownerIdentity)` succeeds and deletes exactly the
backing-store instances whose kind is in the allowed-kind set but not in
the protected-kind set, that carry an owner reference equal to the owner
identity, and whose instance key is absent from the Kind Index for their
kind — the final store is the original filtered by that predicate.
Protected kinds are untouched and a never-populated Kind Index (an
absent tracker entry, giving the empty wanted set) lets every owned
instance of that kind be deleted.  Hypotheses: no injected backing-store
failures, distinct stored objects, per-object owner-reference UIDs
distinct (the API server enforces this), allowed-kind set duplicate-free. -/
theorem C3_reconcile (o : ObjectCache) (c : KClient) (uid : String)
    (hlist : c.fails.failList = none) (hdel : c.fails.failDelete = none)
    (hrefs : ∀ x ∈ c.store, x.ownerRefs.Nodup) (hstore : c.store.Nodup)
    (hgvks : o.possibleGVKs.Nodup) :
    (cacheReconcile o c uid).1 = Outcome.ok () ∧
    (cacheReconcile o c uid).2.store = c.store.filter (fun x => !delPredB o uid x) := by
  have h := reconcileGVKs_spec o uid o.possibleGVKs c hlist hdel hrefs hstore hgvks
  rcases hr : reconcileGVKs o c o.possibleGVKs uid with ⟨r1, c'⟩
  rw [hr] at h
  have h1 : r1 = none := h.1
  subst h1
  constructor
  · rw [cacheReconcile]
    simp only [hr]
  · rw [cacheReconcile]
    simp only [hr]
    show c'.store = _
    rw [h.2.1]
    rfl

/-- The stale owned ConfigMap the witness Reconcile must delete. -/
def c3ObjDel : K8sObject :=
  { gvk := cmGVK, nn := { ns := "default", name := "stale" }, typeName := "v1.ConfigMap",
    payload := 0, ownerRefs := ["u1"] }

/-- An owned instance of the protected Service kind. -/
def c3ObjProt : K8sObject :=
  { gvk := svcGVK, nn := { ns := "default", name := "prot" }, typeName := "v1.Service",
    payload := 0, ownerRefs := ["u1"] }

/-- An owned ConfigMap whose key is present in the Kind Index. -/
def c3ObjKept : K8sObject :=
  { gvk := cmGVK, nn := { ns := "default", name := "kept" }, typeName := "v1.ConfigMap",
    payload := 0, ownerRefs := ["u1"] }

/-- The cache configuration of the C3 witness: ConfigMap and Service
allowed, Service protected, only `c3ObjKept` indexed. -/
def c3Cache : ObjectCache :=
  { data := [], resourceTracker := [(cmGVK, [c3ObjKept.nn])],
    possibleGVKs := [cmGVK, svcGVK], protectedGVKs := [svcGVK], strictGVK := false,
    ordering := ["*"], scheme := schemeTwo }

/-- The backing store of the C3 witness. -/
def c3Client : KClient :=
  { fails := noFails, store := [c3ObjDel, c3ObjProt, c3ObjKept], log := [] }

theorem C3_reconcile_witness :
    (cacheReconcile c3Cache c3Client "u1").1 = Outcome.ok () ∧
    (cacheReconcile c3Cache c3Client "u1").2.store = [c3ObjProt, c3ObjKept] := by
  have h := C3_reconcile c3Cache c3Client "u1" rfl rfl (by decide) (by decide) (by decide)
  refine ⟨h.1, ?_⟩
  rw [h.2]
  decide

end ResourceCacheModel
